import Mathlib

/-!
# temu-web-client: shared HTTP client policy and endpoint glue

A shallow embedding of `browser/temu.browser.client.go` (redirect policy,
pre-request hook, retry condition, `recheckError`, `parseResponseTotal`) and of
`client/bg.auth.service.go` (`validate`, `Login`, `GetMallInfoByKuangjianmaihuo`),
followed by the properties established about them.

Conventions of the embedding:
* a Go `error` result is an `Option GoError` (`none` is `nil`);
* a function that can abort with a run-time panic returns `Except Panic _`;
* Go `int` is the 64-bit two's-complement integer: values are `Int`s of the
  range `minInt .. maxInt`, and arithmetic results are reduced by `wrapInt`;
* mutation of the shared request object is explicit state passing;
* calls into the Go standard library and into packages of the module that are
  outside the two files are parameters (`Lib`, the signature source `sig`).
-/

namespace TemuWebClient

/-! ## Go run-time values -/

/-- Go `error` values: an error carrying a message (`errors.New`, transport and
library errors), or the field-to-message map returned by struct validation. -/
inductive GoError where
  | text (msg : String)
  | validation (fields : List (String × String))
deriving DecidableEq, Repr

/-- Go `errors.New`. -/
def errorsNew (msg : String) : GoError := GoError.text msg

/-- Run-time panics that the embedded functions can raise. -/
inductive Panic where
  | divideByZero
  | indexOutOfRange (index length : Nat)
  | nilPointerDereference
deriving DecidableEq, Repr

deriving instance DecidableEq for Except

/-- Smallest value of Go `int` on a 64-bit target. -/
def minInt : Int := -(2 ^ 63)

/-- Largest value of Go `int` on a 64-bit target. -/
def maxInt : Int := 2 ^ 63 - 1

/-- Membership in the range of Go `int`. -/
def IsInt (x : Int) : Prop := minInt ≤ x ∧ x ≤ maxInt

instance (x : Int) : Decidable (IsInt x) := by
  unfold IsInt
  infer_instance

/-- Two's-complement reduction of an exact integer result to Go `int`. -/
def wrapInt (x : Int) : Int := (x + 2 ^ 63) % 2 ^ 64 - 2 ^ 63

/-- Go `a / b` on `int`: panics on a zero divisor, truncates toward zero, and
wraps on the one overflowing quotient (`minInt / -1`). -/
def goDiv (a b : Int) : Except Panic Int :=
  if b = 0 then Except.error Panic.divideByZero else Except.ok (wrapInt (Int.tdiv a b))

/-- Go `a + b` on `int`. -/
def goAdd (a b : Int) : Int := wrapInt (a + b)

/-! ## Strings -/

/-- Go `unicode.IsSpace`: the Latin-1 white space characters, and the
characters of category Z or property Pattern_White_Space beyond Latin-1. -/
def isSpace (c : Char) : Bool :=
  let n := c.toNat
  n == 0x09 || n == 0x0A || n == 0x0B || n == 0x0C || n == 0x0D || n == 0x20 ||
  n == 0x85 || n == 0xA0 || n == 0x1680 || (0x2000 ≤ n && n ≤ 0x200A) ||
  n == 0x2028 || n == 0x2029 || n == 0x202F || n == 0x205F || n == 0x3000

/-- Go `strings.TrimSpace` on a list of characters. -/
def trimSpaceChars (cs : List Char) : List Char :=
  ((cs.dropWhile isSpace).reverse.dropWhile isSpace).reverse

/-- Go `strings.TrimSpace`. -/
def trimSpace (s : String) : String := String.mk (trimSpaceChars s.data)

/-! ## Responses and envelopes -/

/-- The part of `resty.Response` the code reads: `StatusCode()` (0 when the
transport produced no raw response) and `Body()`. -/
structure RestyResponse where
  statusCode : Int
  body : String
deriving DecidableEq, Repr

/-- The library method `resty.Response.IsError`: status code above 399. -/
def RestyResponse.IsError (r : RestyResponse) : Bool := decide (r.statusCode > 399)

/-- The fields of `normal.Response` that `recheckError` reads. -/
structure NormalResponse where
  Success : Bool
  ErrorMessage : String
deriving DecidableEq, Repr

/-- The function `recheckError` of `browser/temu.browser.client.go`. The response is a pointer
in the source: with a nil transport error and a nil response the call
`resp.IsError()` dereferences nil. -/
def recheckError (resp : Option RestyResponse) (result : NormalResponse)
    (e : Option GoError) : Except Panic (Option GoError) :=
  match e with
  | some err => Except.ok (some err)
  | none =>
    match resp with
    | none => Except.error Panic.nilPointerDereference
    | some r =>
      if r.IsError then
        let errorMessage := trimSpace result.ErrorMessage
        Except.ok (some (errorsNew errorMessage))
      else if !result.Success then
        Except.ok (some (errorsNew result.ErrorMessage))
      else
        Except.ok none

/-- The function `parseResponseTotal` of `browser/temu.browser.client.go`. -/
def parseResponseTotal (currentPage pageSize total : Int) :
    Except Panic (Int × Int × Bool) :=
  let currentPage := if currentPage = 0 then 1 else currentPage
  match goDiv total pageSize with
  | Except.error p => Except.error p
  | Except.ok q =>
    let totalPages := goAdd q 1
    Except.ok (total, totalPages, decide (currentPage ≥ totalPages))

/-! ## Requests of the shared client (`browser/temu.browser.client.go`) -/

/-- The parameters of the login endpoint (`client/bg.auth.service.go`). -/
structure BgLoginRequestParams where
  LoginName : String
  EncryptPassword : String
  KeyVersion : String
  VerifyCode : Option String
deriving DecidableEq, Repr

/-- A request payload handed to `SetBody` (a Go `interface{}` value): the two
payloads built in the embedded endpoints, or any other value, named by a tag.
Its JSON form is decided by `Lib.jsonMarshal`. -/
inductive GoValue where
  | loginParams (p : BgLoginRequestParams)
  | emptyMap
  | other (tag : String)
deriving DecidableEq, Repr

/-- Request headers: the value stored under each key, most recently set first. -/
abbrev Header := List (String × String)

/-- The library call `Header.Set`: the value under `key` is replaced. -/
def Header.set (h : Header) (key value : String) : Header :=
  (key, value) :: h.filter (fun kv => kv.1 != key)

/-- The library call `Header.Get`. -/
def Header.get (h : Header) (key : String) : Option String :=
  (h.find? (fun kv => kv.1 == key)).map (fun kv => kv.2)

/-- The part of `resty.Request` the hooks read and write. -/
structure Request where
  URL : String
  Body : Option GoValue
  Header : Header
deriving DecidableEq, Repr

/-- The library call `Request.SetHeader`. -/
def Request.SetHeader (r : Request) (key value : String) : Request :=
  { r with Header := r.Header.set key value }

/-- The anonymous struct the retry condition decodes a response body into. -/
structure Envelope where
  Success : Bool
  ErrorCode : Int
  ErrorMsg : String
deriving DecidableEq, Repr

/-- The Go standard-library functions called by the hooks of `New`. -/
structure Lib where
  /-- The call `json.Marshal(request.Body)`: the JSON text or the error. -/
  jsonMarshal : GoValue → Except GoError String
  /-- The call `json.Unmarshal(b, &values)` into a `map[string]any`: the keys of
  the decoded map or the error (any JSON text that is not an object fails). -/
  jsonUnmarshalMap : String → Except GoError (List String)
  /-- The call `json.Unmarshal(response.Body(), &r)` into the envelope struct:
  the decoded struct when the call returns nil, `none` when it returns an error. -/
  jsonUnmarshalEnvelope : String → Option Envelope
  /-- The call `strings.EqualFold`: equality of two strings under Unicode case
  folding, that is, equality ignoring case. -/
  equalFold : String → String → Bool

/-- The call `utils.GetAntiContent()`. The function takes no argument and lies
outside the two files: `sig n` is the outcome of its `n`-th call of the run and
`calls` counts the calls made so far. -/
def GetAntiContent (sig : Nat → Except GoError String) (calls : Nat) :
    Except GoError String × Nat :=
  (sig calls, calls + 1)

/-- The value `http.ErrUseLastResponse`. -/
def ErrUseLastResponse : GoError := GoError.text "net/http: use last response"

/-- The closure passed to `SetRedirectPolicy` in `New`: `statusCode` is
`req.Response.StatusCode`, the status of the response that caused the redirect,
and `via` the requests made so far (unused by the closure). -/
def redirectPolicy (statusCode : Int) (_via : List Request) : Option GoError :=
  if statusCode = 302 then
    none
  else
    some ErrUseLastResponse

/-- The closure passed to `OnBeforeRequest` in `New`. Returns the error, the
request after the hook and the number of signature calls made so far. -/
def onBeforeRequest (lib : Lib) (sig : Nat → Except GoError String)
    (request : Request) (calls : Nat) : Option GoError × Request × Nat :=
  let values : Except GoError (List String) :=
    match request.Body with
    | none => Except.ok []
    | some body =>
      match lib.jsonMarshal body with
      | Except.error e => Except.error e
      | Except.ok b => lib.jsonUnmarshalMap b
  match values with
  | Except.error e => (some e, request, calls)
  | Except.ok _ =>
    match GetAntiContent sig calls with
    | (Except.error err, calls1) => (some err, request, calls1)
    | (Except.ok antiContent, calls1) =>
      (none, request.SetHeader "Anti-Content" antiContent, calls1)

/-- The closure passed to `AddRetryCondition` in `New`. The request is
`response.Request`, the shared request object, which the closure mutates; the
result is the returned flag, the request afterwards and the number of signature
calls made so far. -/
def retryCondition (lib : Lib) (sig : Nat → Except GoError String)
    (response : Option RestyResponse) (request : Request) (calls : Nat) :
    Bool × Request × Nat :=
  match response with
  | none => (false, request, calls)
  | some resp =>
    let retry := decide (resp.statusCode = 429)
    let retry :=
      if !retry then
        match lib.jsonUnmarshalEnvelope resp.body with
        | none => false
        | some r =>
          !r.Success && decide (r.ErrorCode = 4000000) &&
            lib.equalFold r.ErrorMsg "SYSTEM_EXCEPTION"
      else retry
    if retry then
      match GetAntiContent sig calls with
      | (Except.error _, calls1) => (false, request, calls1)
      | (Except.ok antiContent, calls1) =>
        (retry, request.SetHeader "Anti-Content" antiContent, calls1)
    else
      (retry, request, calls)

/-- The value passed to `SetRetryCount` in `New`. -/
def retryCount : Nat := 3

/-! ## The request loop of the HTTP library -/

/-- What the remote side does with one attempt: the transport fails, or an
HTTP response with a status code and a body comes back. -/
inductive Reply where
  | transportError (e : GoError)
  | http (statusCode : Int) (body : String)
deriving DecidableEq, Repr

/-- The state of one logical request: the shared request object, the number of
signature calls made so far, and the attempts put on the wire so far, each as
the request was when it was sent. -/
structure ClientState where
  request : Request
  sigCalls : Nat
  sent : List Request
deriving DecidableEq, Repr

/-- Modelled from the spec: the single-attempt execution of the HTTP library,
which is not under the source tree. "Before every outgoing request" the
pre-request hook runs; "if signature computation fails, the request fails
immediately with that error" and nothing is sent; otherwise the request is sent
as the hook left it and the reply becomes the response (a transport failure
gives a response without status or body, together with the error). -/
def execute (lib : Lib) (sig : Nat → Except GoError String)
    (server : Nat → Request → Reply) (st : ClientState) :
    (Option RestyResponse × Option GoError) × ClientState :=
  match onBeforeRequest lib sig st.request st.sigCalls with
  | (some e, request, calls) =>
    ((none, some e), { request := request, sigCalls := calls, sent := st.sent })
  | (none, request, calls) =>
    let st1 : ClientState :=
      { request := request, sigCalls := calls, sent := st.sent ++ [request] }
    match server st.sent.length request with
    | Reply.transportError e => ((some { statusCode := 0, body := "" }, some e), st1)
    | Reply.http statusCode body =>
      ((some { statusCode := statusCode, body := body }, none), st1)

/-- Modelled from the spec: one round of the retry loop of the HTTP library,
which is not under the source tree: the request is executed and, "after every
response", the retry predicate is applied to the outcome (a nil response when
the hook failed). Returns the outcome, the verdict of the predicate and the
state afterwards. -/
def attempt (lib : Lib) (sig : Nat → Except GoError String)
    (server : Nat → Request → Reply) (st : ClientState) :
    ((Option RestyResponse × Option GoError) × Bool) × ClientState :=
  match execute lib sig server st with
  | ((resp, err), st1) =>
    match retryCondition lib sig resp st1.request st1.sigCalls with
    | (needsRetry, request, calls) =>
      (((resp, err), needsRetry), { request := request, sigCalls := calls, sent := st1.sent })

/-- Modelled from the spec: the retry loop of the HTTP library, which is not
under the source tree. When the predicate declines, or no retry is left of the
bounded count, the last response and error go to the caller; otherwise the
request is resent. The request context is taken as never cancelled and the
waits between attempts are not represented. -/
def backoff (lib : Lib) (sig : Nat → Except GoError String)
    (server : Nat → Request → Reply) :
    Nat → ClientState → (Option RestyResponse × Option GoError) × ClientState
  | retries, st =>
    match attempt lib sig server st with
    | ((out, needsRetry), st2) =>
      if !needsRetry then
        (out, st2)
      else
        match retries with
        | 0 => (out, st2)
        | n + 1 => backoff lib sig server n st2

/-- Modelled from the spec: one logical request through the client built by
`New`, that is, the retry loop with the retry count, pre-request hook and retry
condition that `New` installs, started on a request nothing has been sent of. -/
def Execute (lib : Lib) (sig : Nat → Except GoError String)
    (server : Nat → Request → Reply) (request : Request) (calls : Nat) :
    (Option RestyResponse × Option GoError) × ClientState :=
  backoff lib sig server retryCount { request := request, sigCalls := calls, sent := [] }

/-! ## Endpoint methods (`client/bg.auth.service.go`) -/

/-- The rule `validation.Required.Error(msg)` of the validation library applied
to a string field: the field fails with `msg` when it is empty. -/
def required (msg : String) (value : String) : Option String :=
  if value = "" then some msg else none

/-- The library call `validation.ValidateStruct`: the failures of the listed
fields by field name, or nil when no field fails. -/
def ValidateStruct (fields : List (String × Option String)) : Option GoError :=
  let errs := fields.filterMap (fun f => f.2.map (fun msg => (f.1, msg)))
  if errs.isEmpty then none else some (GoError.validation errs)

/-- The method `BgLoginRequestParams.validate`. -/
def BgLoginRequestParams.validate (m : BgLoginRequestParams) : Option GoError :=
  ValidateStruct
    [("loginName", required "登录名不能为空" m.LoginName),
     ("encryptPassword", required "加密密码不能为空" m.EncryptPassword)]

/-- Modelled from the spec: the type `normal.ResponseKuajingmaihuo` is declared
outside the two files; the "standard envelope (login/marketplace shape)" carries
a success flag, an error code and an error message. -/
structure ResponseKuajingmaihuo where
  Success : Bool
  ErrorCode : Int
  ErrorMsg : String
deriving DecidableEq, Repr

/-- One HTTP call issued through the shared client. -/
structure HttpCall where
  method : String
  path : String
  body : Option GoValue
deriving DecidableEq, Repr

/-- What a call through the shared client hands back: the response, the error,
and the value the body was decoded into through `SetResult`. -/
structure Posted (α : Type) where
  resp : Option RestyResponse
  err : Option GoError
  result : α

/-- The anonymous result struct of `Login`. -/
structure LoginResult where
  envelope : ResponseKuajingmaihuo
  MaskMobile : String
  VerifyAuthToken : String
  AccountId : Int
deriving DecidableEq, Repr

/-- The method `bgAuthService.Login`. The shared client is the parameter `post`
and the envelope check `recheckErrorKuajingmaihuo`, defined outside the two
files, is a parameter; the second component lists the HTTP calls issued. -/
def Login (post : HttpCall → Posted LoginResult)
    (recheckErrorKuajingmaihuo :
      Option RestyResponse → ResponseKuajingmaihuo → Option GoError → Option GoError)
    (params : BgLoginRequestParams) : (Int × Option GoError) × List HttpCall :=
  match params.validate with
  | some err => ((0, some err), [])
  | none =>
    let call : HttpCall :=
      { method := "POST", path := "/bg/quiet/api/mms/login",
        body := some (GoValue.loginParams params) }
    let r := post call
    match r.err with
    | some err => ((0, some err), [call])
    | none =>
      match recheckErrorKuajingmaihuo r.resp r.result.envelope r.err with
      | some err => ((0, some err), [call])
      | none => ((r.result.AccountId, none), [call])

/-- Go slice indexing `xs[i]`: panics when the index is out of range. -/
def goIndex {α : Type} (xs : List α) (i : Nat) : Except Panic α :=
  match xs[i]? with
  | some x => Except.ok x
  | none => Except.error (Panic.indexOutOfRange i xs.length)

/-- An entry of `companyList` in the result struct of
`GetMallInfoByKuangjianmaihuo`; `Mall` stands for the entity type
`entity.MallInfoByKuangjianmaihuo`, declared outside the two files. -/
structure Company (Mall : Type) where
  MalInfoList : List Mall

/-- The anonymous result struct of `GetMallInfoByKuangjianmaihuo`. -/
structure MallInfoResult (Mall : Type) where
  envelope : ResponseKuajingmaihuo
  CompanyList : List (Company Mall)

/-- The HTTP call issued by `GetMallInfoByKuangjianmaihuo`. -/
def userInfoCall : HttpCall :=
  { method := "POST", path := "/bg/quiet/api/mms/userInfo", body := some GoValue.emptyMap }

/-- The method `bgAuthService.GetMallInfoByKuangjianmaihuo`, with the shared
client and the envelope check as parameters; the second component lists the
HTTP calls issued. -/
def GetMallInfoByKuangjianmaihuo {Mall : Type} (post : HttpCall → Posted (MallInfoResult Mall))
    (recheckErrorKuajingmaihuo :
      Option RestyResponse → ResponseKuajingmaihuo → Option GoError → Option GoError) :
    Except Panic (List Mall × Option GoError) × List HttpCall :=
  let r := post userInfoCall
  match r.err with
  | some err => (Except.ok ([], some err), [userInfoCall])
  | none =>
    match recheckErrorKuajingmaihuo r.resp r.result.envelope r.err with
    | some err => (Except.ok ([], some err), [userInfoCall])
    | none =>
      match goIndex r.result.CompanyList 0 with
      | Except.error p => (Except.error p, [userInfoCall])
      | Except.ok company => (Except.ok (company.MalInfoList, none), [userInfoCall])

/-- An envelope check for running the endpoint methods on concrete inputs: the
transport error if there is one, else the envelope's message when the success
flag is unset. -/
def sampleCheck (_resp : Option RestyResponse) (envelope : ResponseKuajingmaihuo)
    (e : Option GoError) : Option GoError :=
  match e with
  | some err => some err
  | none => if envelope.Success then none else some (errorsNew envelope.ErrorMsg)

/-- A shared client that answers the mall information call with status 200, a
successful envelope and an empty `companyList`. -/
def emptyCompanyList (_call : HttpCall) : Posted (MallInfoResult String) :=
  { resp := some { statusCode := 200, body := "" }, err := none,
    result := { envelope := { Success := true, ErrorCode := 0, ErrorMsg := "" },
                CompanyList := [] } }

/-- The number of pages needed to hold `total` items at `pageSize` items a
page, in the words of the specification: the ceiling of `total / pageSize`. -/
def pagesNeeded (total pageSize : Int) : Int := Int.ceil ((total : ℚ) / (pageSize : ℚ))

/-! ## Concrete collaborators for evaluating the embedding -/

/-- A library instance for running the hooks on concrete inputs: payloads
marshal to an object text, except that `GoValue.other tag` marshals to `tag`
itself; a text decodes into a map when it opens an object; three bodies decode
into the envelope; case folding is that of ASCII letters. -/
def sampleLib : Lib where
  jsonMarshal := fun v =>
    match v with
    | GoValue.other tag => Except.ok tag
    | _ => Except.ok "\x7b\x7d"
  jsonUnmarshalMap := fun b =>
    if b.data.head?.map Char.toNat = some 0x7b then Except.ok []
    else Except.error (GoError.text "json: cannot unmarshal into Go value of type map")
  jsonUnmarshalEnvelope := fun body =>
    if body = "\x7b\"success\":false,\"errorCode\":4000000,\"errorMsg\":\"System_Exception\"\x7d" then
      some { Success := false, ErrorCode := 4000000, ErrorMsg := "System_Exception" }
    else if body = "\x7b\"success\":false,\"errorCode\":1000,\"errorMsg\":\" bad request \"\x7d" then
      some { Success := false, ErrorCode := 1000, ErrorMsg := " bad request " }
    else if body = "\x7b\"success\":true\x7d" then
      some { Success := true, ErrorCode := 0, ErrorMsg := "" }
    else none
  equalFold := fun s t => s.data.map Char.toUpper == t.data.map Char.toUpper

/-- A signature source in which every call succeeds, the `n`-th with the value
`sig-n`. -/
def sampleSig (n : Nat) : Except GoError String := Except.ok ("sig-" ++ toString n)

/-- A remote side that answers every attempt with status 429. -/
def rateLimited (_attempt : Nat) (_request : Request) : Reply := Reply.http 429 ""

/-- A signature source in which every call fails. -/
def failingSig (_n : Nat) : Except GoError String :=
  Except.error (GoError.text "anti-content unavailable")

/-- A request carrying the empty map as its payload. -/
def emptyMapRequest : Request :=
  { URL := "/bg/quiet/api/mms/userInfo", Body := some GoValue.emptyMap, Header := [] }

/-- A request carrying login parameters as its payload. -/
def loginRequest : Request :=
  { URL := "/bg/quiet/api/mms/login",
    Body := some (GoValue.loginParams
      { LoginName := "seller", EncryptPassword := "secret", KeyVersion := "1",
        VerifyCode := none }),
    Header := [] }

/-- A request without payload and without headers. -/
def sampleRequest : Request := { URL := "/bg/quiet/api/mms/userInfo", Body := none, Header := [] }

/-! ## Integer arithmetic of `parseResponseTotal` -/

theorem wrapInt_of_isInt {x : Int} (h : IsInt x) : wrapInt x = x := by
  unfold IsInt minInt maxInt at h
  unfold wrapInt
  omega

theorem wrapInt_wrapInt_add (q c : Int) : wrapInt (wrapInt q + c) = wrapInt (q + c) := by
  unfold wrapInt
  omega

theorem parseResponseTotal_eq (currentPage pageSize total : Int) (h : pageSize ≠ 0) :
    parseResponseTotal currentPage pageSize total =
      Except.ok (total, wrapInt (Int.tdiv total pageSize + 1),
        decide ((if currentPage = 0 then 1 else currentPage) ≥
          wrapInt (Int.tdiv total pageSize + 1))) := by
  simp [parseResponseTotal, goDiv, goAdd, h, wrapInt_wrapInt_add]

theorem pagesNeeded_eq (total pageSize q r : Int) (hps : 0 < pageSize)
    (hq : total = pageSize * q + r) (hr0 : 0 ≤ r) (hr : r < pageSize) :
    pagesNeeded total pageSize = if r = 0 then q else q + 1 := by
  have hpsQ : (0 : ℚ) < (pageSize : ℚ) := by exact_mod_cast hps
  have hqQ : (total : ℚ) = (pageSize : ℚ) * (q : ℚ) + (r : ℚ) := by exact_mod_cast hq
  have hr0Q : (0 : ℚ) ≤ (r : ℚ) := by exact_mod_cast hr0
  have hrQ : (r : ℚ) < (pageSize : ℚ) := by exact_mod_cast hr
  unfold pagesNeeded
  rw [Int.ceil_eq_iff]
  split
  · rename_i h0
    have h0Q : (r : ℚ) = 0 := by exact_mod_cast h0
    constructor
    · rw [lt_div_iff₀ hpsQ]
      nlinarith
    · rw [div_le_iff₀ hpsQ]
      nlinarith
  · rename_i h0
    have hpos : 0 < r := lt_of_le_of_ne hr0 (Ne.symm h0)
    have hposQ : (0 : ℚ) < (r : ℚ) := by exact_mod_cast hpos
    constructor
    · rw [lt_div_iff₀ hpsQ]
      push_cast
      nlinarith
    · rw [div_le_iff₀ hpsQ]
      push_cast
      nlinarith

/-- C9 (as stated) fails at `pageSize = 1`, `total = 2^63 - 1`: both are values
of `int`, `pageSize > 0` and `total ≥ 0`, the total is a multiple of the page
size, and the `totalPages` returned is `-2^63`, which is not at least 1, does
not satisfy `totalPages * pageSize > total`, and is not one more than the
number of pages needed. -/
theorem parseResponseTotal_totalPages_overflow :
    IsInt 1 ∧ IsInt 9223372036854775807 ∧ (0 : Int) < 1 ∧
    (0 : Int) ≤ 9223372036854775807 ∧ (9223372036854775807 : Int) % 1 = 0 ∧
    parseResponseTotal 1 1 9223372036854775807 =
      Except.ok (9223372036854775807, -9223372036854775808, true) ∧
    ¬ ((-9223372036854775808 : Int) ≥ 1) ∧
    ¬ ((-9223372036854775808 : Int) * 1 > 9223372036854775807) ∧
    (-9223372036854775808 : Int) ≠ pagesNeeded 9223372036854775807 1 + 1 := by
  refine ⟨by decide, by decide, by decide, by decide, by decide, by decide, by decide,
    by decide, ?_⟩
  rw [pagesNeeded_eq 9223372036854775807 1 9223372036854775807 0 (by decide) (by decide)
    (by decide) (by decide)]
  decide

/-- C9 (amended): for every `pageSize > 0` and `total ≥ 0` of `int` other than
the pair `pageSize = 1`, `total = maxInt`, the `totalPages` returned by
`parseResponseTotal` is the number of pages needed to hold `total` items when
`total` is not a multiple of `pageSize`, and one more than that number when it
is; in both cases `totalPages ≥ 1` and `totalPages * pageSize > total`. -/
theorem parseResponseTotal_totalPages (currentPage pageSize total : Int)
    (hps : 0 < pageSize) (htot : 0 ≤ total) (hpsI : IsInt pageSize) (htotI : IsInt total)
    (hno : ¬ (pageSize = 1 ∧ total = maxInt)) :
    ∃ totalPages isLastPage,
      parseResponseTotal currentPage pageSize total =
        Except.ok (total, totalPages, isLastPage) ∧
      (total % pageSize ≠ 0 → totalPages = pagesNeeded total pageSize) ∧
      (total % pageSize = 0 → totalPages = pagesNeeded total pageSize + 1) ∧
      totalPages ≥ 1 ∧ totalPages * pageSize > total := by
  have hne : pageSize ≠ 0 := by omega
  have hdiv : Int.tdiv total pageSize = total / pageSize :=
    Int.tdiv_eq_ediv htot (le_of_lt hps)
  have hdm : total = pageSize * (total / pageSize) + total % pageSize :=
    (Int.ediv_add_emod total pageSize).symm
  have hm0 : 0 ≤ total % pageSize := Int.emod_nonneg total hne
  have hm1 : total % pageSize < pageSize := Int.emod_lt_of_pos total hps
  have hq0 : 0 ≤ total / pageSize := Int.ediv_nonneg htot (le_of_lt hps)
  have hqle : total / pageSize ≤ total := by
    have hp1 : (1 : Int) ≤ pageSize := hps
    nlinarith
  have hqlt : total / pageSize + 1 ≤ maxInt := by
    unfold IsInt minInt maxInt at hpsI htotI
    unfold maxInt at hno ⊢
    by_contra hcon
    have hqeq : total / pageSize = total := by omega
    have hteq : total = 2 ^ 63 - 1 := by omega
    have hp1 : pageSize = 1 := by
      by_contra hp
      have hp2 : (2 : Int) ≤ pageSize := by omega
      rw [hqeq] at hdm
      nlinarith
    exact hno ⟨hp1, hteq⟩
  have hrange : IsInt (Int.tdiv total pageSize + 1) := by
    rw [hdiv]
    unfold IsInt minInt
    unfold maxInt at hqlt ⊢
    constructor
    · omega
    · exact hqlt
  have hpn := pagesNeeded_eq total pageSize (total / pageSize) (total % pageSize) hps hdm hm0 hm1
  refine ⟨Int.tdiv total pageSize + 1,
    decide ((if currentPage = 0 then 1 else currentPage) ≥ Int.tdiv total pageSize + 1),
    ?_, ?_, ?_, ?_, ?_⟩
  · rw [parseResponseTotal_eq currentPage pageSize total hne, wrapInt_of_isInt hrange]
  · intro h
    rw [hpn, if_neg h, hdiv]
  · intro h
    rw [hpn, if_pos h, hdiv]
  · rw [hdiv]
    omega
  · rw [hdiv]
    nlinarith

/-- A run of C9 (amended) at `total = 40`, `pageSize = 20`, where two pages
suffice and three are reported. -/
theorem parseResponseTotal_totalPages_witness :
    ∃ totalPages isLastPage,
      parseResponseTotal 0 20 40 = Except.ok (40, totalPages, isLastPage) ∧
      ((40 : Int) % 20 ≠ 0 → totalPages = pagesNeeded 40 20) ∧
      ((40 : Int) % 20 = 0 → totalPages = pagesNeeded 40 20 + 1) ∧
      totalPages ≥ 1 ∧ totalPages * 20 > 40 :=
  parseResponseTotal_totalPages 0 20 40 (by decide) (by decide) (by decide) (by decide)
    (by decide)

/-! ## The envelope check `recheckError` -/

/-- C3 (as stated) fails: for a redirect whose triggering response has status
302 the policy returns nil, not `http.ErrUseLastResponse`. -/
theorem redirectPolicy_302_returns_nil :
    redirectPolicy 302 [] = none ∧ redirectPolicy 302 [] ≠ some ErrUseLastResponse := by
  decide

/-- C3 (amended): the redirect policy returns nil, so that the redirect is
followed, exactly when the triggering response has status 302, and returns
`http.ErrUseLastResponse`, so that the redirect response itself is what the
caller receives, for every other status. -/
theorem redirectPolicy_spec (statusCode : Int) (via : List Request) :
    (redirectPolicy statusCode via = none ↔ statusCode = 302) ∧
    (redirectPolicy statusCode via = some ErrUseLastResponse ↔ statusCode ≠ 302) := by
  by_cases h : statusCode = 302 <;> simp [redirectPolicy, h]

/-! ## The retry condition -/

/-- C1: the retry condition returns true exactly when the response is non-nil,
its status is 429 or its body decodes as an envelope with `success == false`,
`errorCode == 4000000` and `errorMsg` equal to `SYSTEM_EXCEPTION` ignoring
case, and the recomputation of the signature succeeds; so it returns false for
a nil response, for a non-429 response whose body does not decode or whose
envelope differs in one of the three fields, and whenever the recomputation of
the signature fails. -/
theorem retryCondition_true_iff (lib : Lib) (sig : Nat → Except GoError String)
    (response : Option RestyResponse) (request : Request) (calls : Nat) :
    ((retryCondition lib sig response request calls).1 = true ↔
      ∃ resp, response = some resp ∧
        (resp.statusCode = 429 ∨
          ∃ r, lib.jsonUnmarshalEnvelope resp.body = some r ∧ r.Success = false ∧
            r.ErrorCode = 4000000 ∧ lib.equalFold r.ErrorMsg "SYSTEM_EXCEPTION" = true) ∧
        ∃ antiContent, sig calls = Except.ok antiContent) ∧
    (response = none → (retryCondition lib sig response request calls).1 = false) ∧
    (∀ resp, response = some resp → resp.statusCode ≠ 429 →
      (lib.jsonUnmarshalEnvelope resp.body = none ∨
        ∃ r, lib.jsonUnmarshalEnvelope resp.body = some r ∧
          (r.Success = true ∨ r.ErrorCode ≠ 4000000 ∨
            lib.equalFold r.ErrorMsg "SYSTEM_EXCEPTION" = false)) →
      (retryCondition lib sig response request calls).1 = false) ∧
    (∀ err, sig calls = Except.error err →
      (retryCondition lib sig response request calls).1 = false) := by
  have key : (retryCondition lib sig response request calls).1 = true ↔
      ∃ resp, response = some resp ∧
        (resp.statusCode = 429 ∨
          ∃ r, lib.jsonUnmarshalEnvelope resp.body = some r ∧ r.Success = false ∧
            r.ErrorCode = 4000000 ∧ lib.equalFold r.ErrorMsg "SYSTEM_EXCEPTION" = true) ∧
        ∃ antiContent, sig calls = Except.ok antiContent := by
    cases response with
    | none => simp [retryCondition]
    | some resp =>
      by_cases h429 : resp.statusCode = 429
      · cases hsig : sig calls <;> simp [retryCondition, GetAntiContent, h429, hsig]
      · cases hdec : lib.jsonUnmarshalEnvelope resp.body with
        | none => simp [retryCondition, GetAntiContent, h429, hdec]
        | some r =>
          by_cases hcond : (!r.Success && decide (r.ErrorCode = 4000000) &&
              lib.equalFold r.ErrorMsg "SYSTEM_EXCEPTION") = true
          · have hc := hcond
            simp only [Bool.and_eq_true, Bool.not_eq_true', decide_eq_true_eq] at hc
            cases hsig : sig calls <;>
              simp [retryCondition, GetAntiContent, h429, hdec, hcond, hsig, hc]
          · have hc := hcond
            simp only [Bool.and_eq_true, Bool.not_eq_true', decide_eq_true_eq] at hc
            have hfalse : ¬ (r.Success = false ∧ r.ErrorCode = 4000000 ∧
                lib.equalFold r.ErrorMsg "SYSTEM_EXCEPTION" = true) := by
              intro hh
              exact hc ⟨⟨hh.1, hh.2.1⟩, hh.2.2⟩
            simp [retryCondition, h429, hdec, hcond, hfalse]
  refine ⟨key, ?_, ?_, ?_⟩
  · intro h
    subst h
    rfl
  · intro resp hresp h429 hdec
    rw [← Bool.not_eq_true, key]
    rintro ⟨resp1, h1, hor, _⟩
    rw [hresp] at h1
    cases h1
    rcases hor with h | ⟨r, hr, hs, hc, hf⟩
    · exact h429 h
    · rcases hdec with hnone | ⟨r1, hr1, hbad⟩
      · rw [hnone] at hr
        cases hr
      · rw [hr1] at hr
        cases hr
        rcases hbad with hb | hb | hb
        · rw [hs] at hb
          cases hb
        · exact hb hc
        · rw [hf] at hb
          cases hb
  · intro err herr
    rw [← Bool.not_eq_true, key]
    rintro ⟨_, _, _, v, hv⟩
    rw [herr] at hv
    cases hv

/-! ## The pre-request hook -/

theorem header_get_set (h : Header) (key value : String) :
    (Header.set h key value).get key = some value := by
  simp [Header.set, Header.get, List.find?]

/-! ## Validation and the login endpoint -/

theorem validate_eq_none_iff (m : BgLoginRequestParams) :
    m.validate = none ↔ m.LoginName ≠ "" ∧ m.EncryptPassword ≠ "" := by
  by_cases h1 : m.LoginName = "" <;> by_cases h2 : m.EncryptPassword = "" <;>
    simp [BgLoginRequestParams.validate, ValidateStruct, required, h1, h2]

/-- C6: a login request whose `LoginName` or `EncryptPassword` is empty makes
`Login` return 0 with a non-nil validation error and issue no HTTP request;
`validate` returns nil exactly when both fields are non-empty, whatever
`KeyVersion` and `VerifyCode` are. -/
theorem Login_validation (post : HttpCall → Posted LoginResult)
    (recheckErrorKuajingmaihuo :
      Option RestyResponse → ResponseKuajingmaihuo → Option GoError → Option GoError)
    (params : BgLoginRequestParams) :
    (params.LoginName = "" ∨ params.EncryptPassword = "" →
      ∃ fields, fields ≠ [] ∧ params.validate = some (GoError.validation fields) ∧
        Login post recheckErrorKuajingmaihuo params =
          ((0, some (GoError.validation fields)), [])) ∧
    (params.validate = none ↔ params.LoginName ≠ "" ∧ params.EncryptPassword ≠ "") ∧
    (∀ keyVersion verifyCode,
      BgLoginRequestParams.validate
          { params with KeyVersion := keyVersion, VerifyCode := verifyCode } =
        params.validate) := by
  refine ⟨?_, validate_eq_none_iff params, ?_⟩
  · intro h
    have hv : ∃ fields, fields ≠ [] ∧ params.validate = some (GoError.validation fields) := by
      by_cases h1 : params.LoginName = "" <;> by_cases h2 : params.EncryptPassword = ""
      · exact ⟨[("loginName", "登录名不能为空"), ("encryptPassword", "加密密码不能为空")], by simp,
          by simp [BgLoginRequestParams.validate, ValidateStruct, required, h1, h2]⟩
      · exact ⟨[("loginName", "登录名不能为空")], by simp,
          by simp [BgLoginRequestParams.validate, ValidateStruct, required, h1, h2]⟩
      · exact ⟨[("encryptPassword", "加密密码不能为空")], by simp,
          by simp [BgLoginRequestParams.validate, ValidateStruct, required, h1, h2]⟩
      · rcases h with h | h
        · exact absurd h h1
        · exact absurd h h2
    obtain ⟨fields, hne, hval⟩ := hv
    refine ⟨fields, hne, hval, ?_⟩
    unfold Login
    rw [hval]
  · intro keyVersion verifyCode
    rfl

/-! ## The retry loop -/

theorem onBeforeRequest_cases (lib : Lib) (sig : Nat → Except GoError String)
    (request : Request) (calls : Nat) :
    (∃ e calls1, onBeforeRequest lib sig request calls = (some e, request, calls1)) ∨
    (∃ v, sig calls = Except.ok v ∧
      onBeforeRequest lib sig request calls =
        (none, request.SetHeader "Anti-Content" v, calls + 1)) := by
  cases hb : request.Body with
  | none =>
    cases hsig : sig calls with
    | error e =>
      exact Or.inl ⟨e, calls + 1, by simp [onBeforeRequest, GetAntiContent, hb, hsig]⟩
    | ok v => exact Or.inr ⟨v, rfl, by simp [onBeforeRequest, GetAntiContent, hb, hsig]⟩
  | some body =>
    cases hm : lib.jsonMarshal body with
    | error e => exact Or.inl ⟨e, calls, by simp [onBeforeRequest, hb, hm]⟩
    | ok b =>
      cases hu : lib.jsonUnmarshalMap b with
      | error e => exact Or.inl ⟨e, calls, by simp [onBeforeRequest, hb, hm, hu]⟩
      | ok keys =>
        cases hsig : sig calls with
        | error e =>
          exact Or.inl ⟨e, calls + 1,
            by simp [onBeforeRequest, GetAntiContent, hb, hm, hu, hsig]⟩
        | ok v =>
          exact Or.inr ⟨v, rfl, by simp [onBeforeRequest, GetAntiContent, hb, hm, hu, hsig]⟩

theorem retryCondition_cases (lib : Lib) (sig : Nat → Except GoError String)
    (response : Option RestyResponse) (request : Request) (calls : Nat) :
    (∃ calls1, retryCondition lib sig response request calls = (false, request, calls1)) ∨
    (∃ w, sig calls = Except.ok w ∧
      retryCondition lib sig response request calls =
        (true, request.SetHeader "Anti-Content" w, calls + 1)) := by
  cases response with
  | none => exact Or.inl ⟨calls, rfl⟩
  | some resp =>
    have h : ∀ retry : Bool,
        (∃ calls1,
          (if retry = true then
            match GetAntiContent sig calls with
            | (Except.error _, calls1) => (false, request, calls1)
            | (Except.ok antiContent, calls1) =>
              (retry, request.SetHeader "Anti-Content" antiContent, calls1)
          else (retry, request, calls)) = (false, request, calls1)) ∨
        (∃ w, sig calls = Except.ok w ∧
          (if retry = true then
            match GetAntiContent sig calls with
            | (Except.error _, calls1) => (false, request, calls1)
            | (Except.ok antiContent, calls1) =>
              (retry, request.SetHeader "Anti-Content" antiContent, calls1)
          else (retry, request, calls)) =
            (true, request.SetHeader "Anti-Content" w, calls + 1)) := by
      intro retry
      cases retry with
      | false => exact Or.inl ⟨calls, by simp⟩
      | true =>
        cases hsig : sig calls with
        | error e => exact Or.inl ⟨calls + 1, by simp [GetAntiContent, hsig]⟩
        | ok w => exact Or.inr ⟨w, rfl, by simp [GetAntiContent, hsig]⟩
    exact h _

theorem retryCondition_nil (lib : Lib) (sig : Nat → Except GoError String)
    (request : Request) (calls : Nat) :
    retryCondition lib sig none request calls = (false, request, calls) := rfl

theorem execute_hook_failure (lib : Lib) (sig : Nat → Except GoError String)
    (server : Nat → Request → Reply) (st : ClientState) (e : GoError) (calls1 : Nat)
    (h : onBeforeRequest lib sig st.request st.sigCalls = (some e, st.request, calls1)) :
    execute lib sig server st =
      ((none, some e), { request := st.request, sigCalls := calls1, sent := st.sent }) := by
  simp [execute, h]

theorem attempt_cases (lib : Lib) (sig : Nat → Except GoError String)
    (server : Nat → Request → Reply) (st : ClientState) :
    ((attempt lib sig server st).1.2 = false ∧ (attempt lib sig server st).2.sent = st.sent) ∨
    (∃ v, sig st.sigCalls = Except.ok v ∧
      (attempt lib sig server st).2.sent =
        st.sent ++ [st.request.SetHeader "Anti-Content" v] ∧
      ((attempt lib sig server st).1.2 = true →
        (attempt lib sig server st).2.sigCalls = st.sigCalls + 2 ∧
        ∃ w, sig (st.sigCalls + 1) = Except.ok w)) := by
  rcases onBeforeRequest_cases lib sig st.request st.sigCalls with ⟨e, c1, h⟩ | ⟨v, hv, h⟩
  · left
    simp [attempt, execute, h, retryCondition_nil]
  · right
    refine ⟨v, hv, ?_⟩
    cases hsrv : server st.sent.length (st.request.SetHeader "Anti-Content" v) with
    | transportError e =>
      rcases retryCondition_cases lib sig (some { statusCode := 0, body := "" })
        (st.request.SetHeader "Anti-Content" v) (st.sigCalls + 1) with ⟨c1, h2⟩ | ⟨w, hw, h2⟩
      · simp [attempt, execute, h, hsrv, h2]
      · simp [attempt, execute, h, hsrv, h2, hw]
    | http statusCode body =>
      rcases retryCondition_cases lib sig (some { statusCode := statusCode, body := body })
        (st.request.SetHeader "Anti-Content" v) (st.sigCalls + 1) with ⟨c1, h2⟩ | ⟨w, hw, h2⟩
      · simp [attempt, execute, h, hsrv, h2]
      · simp [attempt, execute, h, hsrv, h2, hw]

theorem backoff_zero (lib : Lib) (sig : Nat → Except GoError String)
    (server : Nat → Request → Reply) (st : ClientState) :
    backoff lib sig server 0 st =
      ((attempt lib sig server st).1.1, (attempt lib sig server st).2) := by
  rw [backoff]
  rcases attempt lib sig server st with ⟨⟨out, b⟩, st2⟩
  cases b <;> rfl

theorem backoff_succ (lib : Lib) (sig : Nat → Except GoError String)
    (server : Nat → Request → Reply) (n : Nat) (st : ClientState) :
    backoff lib sig server (n + 1) st =
      if (attempt lib sig server st).1.2 = true then
        backoff lib sig server n (attempt lib sig server st).2
      else ((attempt lib sig server st).1.1, (attempt lib sig server st).2) := by
  rw [backoff]
  rcases attempt lib sig server st with ⟨⟨out, b⟩, st2⟩
  cases b <;> rfl

theorem backoff_sent_length_le (lib : Lib) (sig : Nat → Except GoError String)
    (server : Nat → Request → Reply) :
    ∀ (retries : Nat) (st : ClientState),
      (backoff lib sig server retries st).2.sent.length ≤ st.sent.length + retries + 1 := by
  intro retries
  induction retries with
  | zero =>
    intro st
    rw [backoff_zero]
    rcases attempt_cases lib sig server st with ⟨_, h⟩ | ⟨v, _, h, _⟩
    · simp [h]
    · simp [h]
  | succ n ih =>
    intro st
    rw [backoff_succ]
    have hlen : (attempt lib sig server st).2.sent.length ≤ st.sent.length + 1 := by
      rcases attempt_cases lib sig server st with ⟨_, h⟩ | ⟨v, _, h, _⟩
      · simp [h]
      · simp [h]
    split
    · have := ih (attempt lib sig server st).2
      omega
    · simp only
      omega

theorem attempt_fresh (lib : Lib) (sig : Nat → Except GoError String)
    (server : Nat → Request → Reply) (c0 : Nat) (st : ClientState)
    (hcalls : st.sigCalls = c0 + 2 * st.sent.length)
    (hprev : 0 < st.sent.length → ∃ w, sig (st.sigCalls - 1) = Except.ok w)
    (hsent : ∀ k req, st.sent[k]? = some req →
      (∃ v, sig (c0 + 2 * k) = Except.ok v ∧ req.Header.get "Anti-Content" = some v) ∧
      (0 < k → ∃ w, sig (c0 + 2 * k - 1) = Except.ok w)) :
    (∀ k req, (attempt lib sig server st).2.sent[k]? = some req →
      (∃ v, sig (c0 + 2 * k) = Except.ok v ∧ req.Header.get "Anti-Content" = some v) ∧
      (0 < k → ∃ w, sig (c0 + 2 * k - 1) = Except.ok w)) ∧
    ((attempt lib sig server st).1.2 = true →
      (attempt lib sig server st).2.sigCalls =
        c0 + 2 * (attempt lib sig server st).2.sent.length ∧
      (0 < (attempt lib sig server st).2.sent.length →
        ∃ w, sig ((attempt lib sig server st).2.sigCalls - 1) = Except.ok w)) := by
  rcases attempt_cases lib sig server st with ⟨hb, hs⟩ | ⟨v, hv, hs, hnext⟩
  · constructor
    · rw [hs]
      exact hsent
    · intro htrue
      rw [hb] at htrue
      cases htrue
  · constructor
    · intro k req hk
      rw [hs] at hk
      by_cases hlt : k < st.sent.length
      · rw [List.getElem?_append_left hlt] at hk
        exact hsent k req hk
      · by_cases heq : k = st.sent.length
        · subst heq
          rw [List.getElem?_concat_length] at hk
          cases hk
          constructor
          · refine ⟨v, ?_, header_get_set _ _ _⟩
            rw [← hcalls]
            exact hv
          · intro hpos
            have h := hprev hpos
            rw [hcalls] at h
            exact h
        · have hgt : st.sent.length + 1 ≤ k := by omega
          rw [List.getElem?_eq_none (by simp; omega)] at hk
          cases hk
    · intro htrue
      obtain ⟨hc, w, hw⟩ := hnext htrue
      rw [hc, hs]
      constructor
      · simp
        omega
      · intro _
        refine ⟨w, ?_⟩
        have : st.sigCalls + 2 - 1 = st.sigCalls + 1 := by omega
        rw [this]
        exact hw

theorem backoff_fresh (lib : Lib) (sig : Nat → Except GoError String)
    (server : Nat → Request → Reply) (c0 : Nat) :
    ∀ (retries : Nat) (st : ClientState),
      st.sigCalls = c0 + 2 * st.sent.length →
      (0 < st.sent.length → ∃ w, sig (st.sigCalls - 1) = Except.ok w) →
      (∀ k req, st.sent[k]? = some req →
        (∃ v, sig (c0 + 2 * k) = Except.ok v ∧ req.Header.get "Anti-Content" = some v) ∧
        (0 < k → ∃ w, sig (c0 + 2 * k - 1) = Except.ok w)) →
      ∀ k req, (backoff lib sig server retries st).2.sent[k]? = some req →
        (∃ v, sig (c0 + 2 * k) = Except.ok v ∧ req.Header.get "Anti-Content" = some v) ∧
        (0 < k → ∃ w, sig (c0 + 2 * k - 1) = Except.ok w) := by
  intro retries
  induction retries with
  | zero =>
    intro st hcalls hprev hsent
    rw [backoff_zero]
    exact (attempt_fresh lib sig server c0 st hcalls hprev hsent).1
  | succ n ih =>
    intro st hcalls hprev hsent
    have hstep := attempt_fresh lib sig server c0 st hcalls hprev hsent
    rw [backoff_succ]
    split
    · rename_i htrue
      obtain ⟨hc, hp⟩ := hstep.2 htrue
      exact ih (attempt lib sig server st).2 hc hp hstep.1
    · exact hstep.1

/-- C5: every attempt of a request that is put on the wire carries as its
`Anti-Content` header the value returned by a signature computation made for
that attempt: attempt `k` (counted from 0) carries the result of the call
number `calls + 2 * k` of the run, made by the pre-request hook after all
earlier attempts were sent, and for a resend the retry condition has made the
call before it, number `calls + 2 * k - 1`, with success. The calls of
different attempts are different calls, so no attempt carries what was computed
for a prior one. -/
theorem antiContent_recomputed_each_attempt (lib : Lib)
    (sig : Nat → Except GoError String) (server : Nat → Request → Reply)
    (request : Request) (calls k : Nat) (sentRequest : Request)
    (h : (Execute lib sig server request calls).2.sent[k]? = some sentRequest) :
    (∃ v, sig (calls + 2 * k) = Except.ok v ∧
      sentRequest.Header.get "Anti-Content" = some v) ∧
    (0 < k → ∃ w, sig (calls + 2 * k - 1) = Except.ok w) := by
  unfold Execute at h
  refine backoff_fresh lib sig server calls retryCount
    { request := request, sigCalls := calls, sent := [] } (by simp) (by simp) ?_ k
    sentRequest h
  intro j req hj
  simp at hj

/-- A run of C5: the third attempt of a request that is answered with status
429 throughout carries the value of the fifth signature call. -/
theorem antiContent_recomputed_each_attempt_witness :
    (∃ v, sampleSig (0 + 2 * 2) = Except.ok v ∧
      Header.get [("Anti-Content", "sig-4")] "Anti-Content" = some v) ∧
    (0 < 2 → ∃ w, sampleSig (0 + 2 * 2 - 1) = Except.ok w) :=
  antiContent_recomputed_each_attempt sampleLib sampleSig rateLimited sampleRequest 0 2
    { URL := "/bg/quiet/api/mms/userInfo", Body := none,
      Header := [("Anti-Content", "sig-4")] }
    (by decide)

/-! ## Retrying on status 429 -/

theorem onBeforeRequest_ok (lib : Lib) (sig : Nat → Except GoError String)
    (request : Request) (calls : Nat) (v : String)
    (hbody : request.Body = none ∨
      ∃ body b keys, request.Body = some body ∧ lib.jsonMarshal body = Except.ok b ∧
        lib.jsonUnmarshalMap b = Except.ok keys)
    (hsig : sig calls = Except.ok v) :
    onBeforeRequest lib sig request calls =
      (none, request.SetHeader "Anti-Content" v, calls + 1) := by
  rcases hbody with hb | ⟨body, b, keys, hb, hm, hu⟩
  · simp [onBeforeRequest, GetAntiContent, hb, hsig]
  · simp [onBeforeRequest, GetAntiContent, hb, hm, hu, hsig]

theorem retryCondition_429 (lib : Lib) (sig : Nat → Except GoError String)
    (body : String) (request : Request) (calls : Nat) (w : String)
    (hsig : sig calls = Except.ok w) :
    retryCondition lib sig (some { statusCode := 429, body := body }) request calls =
      (true, request.SetHeader "Anti-Content" w, calls + 1) := by
  simp [retryCondition, GetAntiContent, hsig]

theorem attempt_429 (lib : Lib) (sig : Nat → Except GoError String)
    (server : Nat → Request → Reply) (st : ClientState)
    (hbody : st.request.Body = none ∨
      ∃ body b keys, st.request.Body = some body ∧ lib.jsonMarshal body = Except.ok b ∧
        lib.jsonUnmarshalMap b = Except.ok keys)
    (h429 : ∀ n req, ∃ body, server n req = Reply.http 429 body)
    (hsig : ∀ n, ∃ v, sig n = Except.ok v) :
    ∃ v w body,
      server st.sent.length (st.request.SetHeader "Anti-Content" v) = Reply.http 429 body ∧
      attempt lib sig server st =
        (((some { statusCode := 429, body := body }, none), true),
          { request := (st.request.SetHeader "Anti-Content" v).SetHeader "Anti-Content" w,
            sigCalls := st.sigCalls + 2,
            sent := st.sent ++ [st.request.SetHeader "Anti-Content" v] }) := by
  obtain ⟨v, hv⟩ := hsig st.sigCalls
  obtain ⟨w, hw⟩ := hsig (st.sigCalls + 1)
  obtain ⟨body, hsrv⟩ := h429 st.sent.length (st.request.SetHeader "Anti-Content" v)
  refine ⟨v, w, body, hsrv, ?_⟩
  simp [attempt, execute, onBeforeRequest_ok lib sig st.request st.sigCalls v hbody hv, hsrv,
    retryCondition_429 lib sig body _ _ w hw]

theorem backoff_429 (lib : Lib) (sig : Nat → Except GoError String)
    (server : Nat → Request → Reply)
    (h429 : ∀ n req, ∃ body, server n req = Reply.http 429 body)
    (hsig : ∀ n, ∃ v, sig n = Except.ok v) :
    ∀ (retries : Nat) (st : ClientState),
      (st.request.Body = none ∨
        ∃ body b keys, st.request.Body = some body ∧ lib.jsonMarshal body = Except.ok b ∧
          lib.jsonUnmarshalMap b = Except.ok keys) →
      ∃ last body,
        (backoff lib sig server retries st).2.sent.length = st.sent.length + retries + 1 ∧
        (backoff lib sig server retries st).2.sent[st.sent.length + retries]? = some last ∧
        server (st.sent.length + retries) last = Reply.http 429 body ∧
        (backoff lib sig server retries st).1 =
          (some { statusCode := 429, body := body }, none) := by
  intro retries
  induction retries with
  | zero =>
    intro st hbody
    obtain ⟨v, w, body, hsrv, hatt⟩ := attempt_429 lib sig server st hbody h429 hsig
    refine ⟨st.request.SetHeader "Anti-Content" v, body, ?_, ?_, ?_, ?_⟩
    · rw [backoff_zero, hatt]
      simp
    · rw [backoff_zero, hatt]
      simp
    · simpa using hsrv
    · rw [backoff_zero, hatt]
  | succ n ih =>
    intro st hbody
    obtain ⟨v, w, body, hsrv, hatt⟩ := attempt_429 lib sig server st hbody h429 hsig
    have hnext := ih (attempt lib sig server st).2 (by rw [hatt]; exact hbody)
    rw [hatt] at hnext
    obtain ⟨last, body1, hlen, hget, hlast, hout⟩ := hnext
    have hidx : (st.sent ++ [st.request.SetHeader "Anti-Content" v]).length + n =
        st.sent.length + (n + 1) := by
      simp
      omega
    simp only [hidx] at hlen hget hlast
    refine ⟨last, body1, ?_, ?_, hlast, ?_⟩
    · rw [backoff_succ, hatt]
      simpa using hlen
    · rw [backoff_succ, hatt]
      simpa using hget
    · rw [backoff_succ, hatt]
      simpa using hout

/-- C2: the retry loop configured by `New` never performs more than 3 resends
after the first attempt; and for a request (with no body, or a body that
serialises to a JSON object) whose responses all have status 429, with the
signature computation always succeeding, it performs exactly 3 resends and then
hands the caller the 429 response to the last attempt with a nil error, for
which `recheckError` returns a non-nil error. -/
theorem retry_on_429 (lib : Lib) (sig : Nat → Except GoError String)
    (server : Nat → Request → Reply) (request : Request) (calls : Nat)
    (hbody : request.Body = none ∨
      ∃ body b keys, request.Body = some body ∧ lib.jsonMarshal body = Except.ok b ∧
        lib.jsonUnmarshalMap b = Except.ok keys)
    (h429 : ∀ n req, ∃ body, server n req = Reply.http 429 body)
    (hsig : ∀ n, ∃ v, sig n = Except.ok v) :
    (∀ (lib1 : Lib) (sig1 : Nat → Except GoError String) (server1 : Nat → Request → Reply)
        (request1 : Request) (calls1 : Nat),
      (Execute lib1 sig1 server1 request1 calls1).2.sent.length ≤ 1 + 3) ∧
    (Execute lib sig server request calls).2.sent.length = 1 + 3 ∧
    ∃ last body,
      (Execute lib sig server request calls).2.sent[3]? = some last ∧
      server 3 last = Reply.http 429 body ∧
      (Execute lib sig server request calls).1 =
        (some { statusCode := 429, body := body }, none) ∧
      ∀ result : NormalResponse, ∃ err,
        recheckError (some { statusCode := 429, body := body }) result none =
          Except.ok (some err) := by
  refine ⟨?_, ?_⟩
  · intro lib1 sig1 server1 request1 calls1
    have h := backoff_sent_length_le lib1 sig1 server1 retryCount
      { request := request1, sigCalls := calls1, sent := [] }
    simpa [Execute, retryCount] using h
  · obtain ⟨last, body, hlen, hget, hlast, hout⟩ :=
      backoff_429 lib sig server h429 hsig retryCount
        { request := request, sigCalls := calls, sent := [] } hbody
    refine ⟨by simpa [Execute, retryCount] using hlen, last, body,
      by simpa [Execute, retryCount] using hget, by simpa [retryCount] using hlast,
      by simpa [Execute] using hout, ?_⟩
    intro result
    exact ⟨errorsNew (trimSpace result.ErrorMessage),
      by simp [recheckError, RestyResponse.IsError]⟩

/-- A run of C2: a request without body, answered with status 429 at every
attempt, is put on the wire four times. -/
theorem retry_on_429_witness :
    (Execute sampleLib sampleSig rateLimited sampleRequest 0).2.sent.length = 1 + 3 :=
  (retry_on_429 sampleLib sampleSig rateLimited sampleRequest 0 (Or.inl rfl)
    (fun _ _ => ⟨"", rfl⟩) (fun n => ⟨"sig-" ++ toString n, rfl⟩)).2.1

/-! ## The mall information endpoint -/

/-- C10: when the request succeeds and the envelope check passes,
`GetMallInfoByKuangjianmaihuo` returns the `malInfoList` of the first entry of
`companyList` with a nil error if the list is non-empty, and fails with an
index-out-of-range panic, returning no pair at all, exactly when the list is
empty: nothing in the method checks the length before `CompanyList[0]`. -/
theorem GetMallInfoByKuangjianmaihuo_spec {Mall : Type}
    (post : HttpCall → Posted (MallInfoResult Mall))
    (recheckErrorKuajingmaihuo :
      Option RestyResponse → ResponseKuajingmaihuo → Option GoError → Option GoError)
    (herr : (post userInfoCall).err = none)
    (hcheck : recheckErrorKuajingmaihuo (post userInfoCall).resp
      (post userInfoCall).result.envelope none = none) :
    (∀ company rest, (post userInfoCall).result.CompanyList = company :: rest →
      GetMallInfoByKuangjianmaihuo post recheckErrorKuajingmaihuo =
        (Except.ok (company.MalInfoList, none), [userInfoCall])) ∧
    ((post userInfoCall).result.CompanyList = [] ↔
      (GetMallInfoByKuangjianmaihuo post recheckErrorKuajingmaihuo).1 =
        Except.error (Panic.indexOutOfRange 0 0)) ∧
    ((post userInfoCall).result.CompanyList = [] ↔
      ∃ p, (GetMallInfoByKuangjianmaihuo post recheckErrorKuajingmaihuo).1 =
        Except.error p) ∧
    ((post userInfoCall).result.CompanyList = [] ↔
      ∀ malls err, (GetMallInfoByKuangjianmaihuo post recheckErrorKuajingmaihuo).1 ≠
        Except.ok (malls, err)) := by
  cases hlist : (post userInfoCall).result.CompanyList with
  | nil =>
    have hrun : (GetMallInfoByKuangjianmaihuo post recheckErrorKuajingmaihuo).1 =
        Except.error (Panic.indexOutOfRange 0 0) := by
      simp [GetMallInfoByKuangjianmaihuo, herr, hcheck, hlist, goIndex]
    refine ⟨?_, ?_, ?_, ?_⟩
    · intro company rest h
      cases h
    · simp [hrun]
    · simp [hrun]
    · simp [hrun]
  | cons company rest =>
    have hrun : GetMallInfoByKuangjianmaihuo post recheckErrorKuajingmaihuo =
        (Except.ok (company.MalInfoList, none), [userInfoCall]) := by
      simp [GetMallInfoByKuangjianmaihuo, herr, hcheck, hlist, goIndex]
    refine ⟨?_, ?_, ?_, ?_⟩
    · intro company1 rest1 h
      cases h
      exact hrun
    · simp [hrun]
    · simp [hrun]
    · rw [hrun]
      constructor
      · intro h
        cases h
      · intro h
        exact absurd rfl (h company.MalInfoList none)

/-- A run of C10: a successful response whose `companyList` is empty makes the
method panic on the index 0. -/
theorem GetMallInfoByKuangjianmaihuo_spec_witness :
    (GetMallInfoByKuangjianmaihuo emptyCompanyList sampleCheck).1 =
      Except.error (Panic.indexOutOfRange 0 0) :=
  (GetMallInfoByKuangjianmaihuo_spec emptyCompanyList sampleCheck rfl rfl).2.1.mp rfl

/-! ## The pre-request hook and the signature -/

theorem onBeforeRequest_err (lib : Lib) (sig : Nat → Except GoError String)
    (request : Request) (calls : Nat) (err : GoError)
    (hbody : request.Body = none ∨
      ∃ body b keys, request.Body = some body ∧ lib.jsonMarshal body = Except.ok b ∧
        lib.jsonUnmarshalMap b = Except.ok keys)
    (hsig : sig calls = Except.error err) :
    onBeforeRequest lib sig request calls = (some err, request, calls + 1) := by
  rcases hbody with hb | ⟨body, b, keys, hb, hm, hu⟩
  · simp [onBeforeRequest, GetAntiContent, hb, hsig]
  · simp [onBeforeRequest, GetAntiContent, hb, hm, hu, hsig]

theorem Execute_hook_failure (lib : Lib) (sig : Nat → Except GoError String)
    (server : Nat → Request → Reply) (request : Request) (calls calls1 : Nat) (err : GoError)
    (h : onBeforeRequest lib sig request calls = (some err, request, calls1)) :
    Execute lib sig server request calls =
      ((none, some err), { request := request, sigCalls := calls1, sent := [] }) := by
  have hatt : attempt lib sig server { request := request, sigCalls := calls, sent := [] } =
      (((none, some err), false), { request := request, sigCalls := calls1, sent := [] }) := by
    simp [attempt, execute, h, retryCondition_nil]
  unfold Execute retryCount
  rw [backoff_succ, hatt]
  simp

/-- C4 (as stated) fails: the signature is not computed over the request body.
A request without body and a request carrying login parameters, two different
bodies, get the same `Anti-Content` value from the hook at the same point of
the run, so no signing function that tells the two bodies apart gives the
values the hook sets. -/
theorem onBeforeRequest_signature_ignores_body :
    sampleRequest.Body ≠ loginRequest.Body ∧
    onBeforeRequest sampleLib sampleSig sampleRequest 0 =
      (none, sampleRequest.SetHeader "Anti-Content" "sig-0", 1) ∧
    onBeforeRequest sampleLib sampleSig loginRequest 0 =
      (none, loginRequest.SetHeader "Anti-Content" "sig-0", 1) ∧
    ¬ ∃ sign : Option GoValue → String,
      sign sampleRequest.Body ≠ sign loginRequest.Body ∧
      (onBeforeRequest sampleLib sampleSig sampleRequest 0).2.1.Header.get "Anti-Content" =
        some (sign sampleRequest.Body) ∧
      (onBeforeRequest sampleLib sampleSig loginRequest 0).2.1.Header.get "Anti-Content" =
        some (sign loginRequest.Body) := by
  have h1 : (onBeforeRequest sampleLib sampleSig sampleRequest 0).2.1.Header.get
      "Anti-Content" = some "sig-0" := by decide
  have h2 : (onBeforeRequest sampleLib sampleSig loginRequest 0).2.1.Header.get
      "Anti-Content" = some "sig-0" := by decide
  refine ⟨by decide, by decide, by decide, ?_⟩
  rintro ⟨sign, hne, hs1, hs2⟩
  rw [h1] at hs1
  rw [h2] at hs2
  exact hne ((Option.some.inj hs1).symm.trans (Option.some.inj hs2))

/-- C4 (amended): for a request with no body, or with a body that serialises to
a JSON object, the pre-request hook obtains the signature from a call that
takes nothing of the request, so that the value is the same whatever the body
is, and sets it as the `Anti-Content` header, returning no error and leaving
the body as it was; and if the signature computation fails, the hook returns
exactly that error and leaves the request, its headers included, unchanged,
and the request fails with that error without being sent and without a
retry. -/
theorem onBeforeRequest_spec (lib : Lib) (sig : Nat → Except GoError String)
    (request : Request) (calls : Nat)
    (hbody : request.Body = none ∨
      ∃ body b keys, request.Body = some body ∧ lib.jsonMarshal body = Except.ok b ∧
        lib.jsonUnmarshalMap b = Except.ok keys) :
    (∀ antiContent, sig calls = Except.ok antiContent →
      onBeforeRequest lib sig request calls =
        (none, request.SetHeader "Anti-Content" antiContent, calls + 1) ∧
      (request.SetHeader "Anti-Content" antiContent).Header.get "Anti-Content" =
        some antiContent ∧
      (request.SetHeader "Anti-Content" antiContent).Body = request.Body) ∧
    (∀ antiContent, sig calls = Except.ok antiContent →
      ∀ other : Request,
        (other.Body = none ∨
          ∃ body b keys, other.Body = some body ∧ lib.jsonMarshal body = Except.ok b ∧
            lib.jsonUnmarshalMap b = Except.ok keys) →
        onBeforeRequest lib sig other calls =
          (none, other.SetHeader "Anti-Content" antiContent, calls + 1) ∧
        (onBeforeRequest lib sig other calls).2.1.Header.get "Anti-Content" =
          (onBeforeRequest lib sig request calls).2.1.Header.get "Anti-Content") ∧
    (∀ err, sig calls = Except.error err →
      onBeforeRequest lib sig request calls = (some err, request, calls + 1) ∧
      ∀ server : Nat → Request → Reply,
        Execute lib sig server request calls =
          ((none, some err), { request := request, sigCalls := calls + 1, sent := [] })) := by
  refine ⟨?_, ?_, ?_⟩
  · intro antiContent hsig
    exact ⟨onBeforeRequest_ok lib sig request calls antiContent hbody hsig,
      header_get_set _ _ _, rfl⟩
  · intro antiContent hsig other hother
    rw [onBeforeRequest_ok lib sig request calls antiContent hbody hsig,
      onBeforeRequest_ok lib sig other calls antiContent hother hsig]
    exact ⟨rfl, by simp [Request.SetHeader, header_get_set]⟩
  · intro err hsig
    have h := onBeforeRequest_err lib sig request calls err hbody hsig
    exact ⟨h, fun server => Execute_hook_failure lib sig server request calls (calls + 1) err h⟩

/-- A run of C4 (amended): with a signature source that succeeds the hook sets
the value of the call on a request carrying the empty map; with one that fails
the hook returns the failure, the request is unchanged, and nothing is sent. -/
theorem onBeforeRequest_spec_witness :
    onBeforeRequest sampleLib sampleSig emptyMapRequest 0 =
      (none, emptyMapRequest.SetHeader "Anti-Content" "sig-0", 0 + 1) ∧
    onBeforeRequest sampleLib failingSig emptyMapRequest 0 =
      (some (GoError.text "anti-content unavailable"), emptyMapRequest, 0 + 1) ∧
    Execute sampleLib failingSig rateLimited emptyMapRequest 0 =
      ((none, some (GoError.text "anti-content unavailable")),
        { request := emptyMapRequest, sigCalls := 0 + 1, sent := [] }) :=
  ⟨((onBeforeRequest_spec sampleLib sampleSig emptyMapRequest 0
      (Or.inr ⟨GoValue.emptyMap, "\x7b\x7d", [], rfl, rfl, by decide⟩)).1 "sig-0" rfl).1,
    ((onBeforeRequest_spec sampleLib failingSig emptyMapRequest 0
      (Or.inr ⟨GoValue.emptyMap, "\x7b\x7d", [], rfl, rfl, by decide⟩)).2.2
        (GoError.text "anti-content unavailable") rfl).1,
    ((onBeforeRequest_spec sampleLib failingSig emptyMapRequest 0
      (Or.inr ⟨GoValue.emptyMap, "\x7b\x7d", [], rfl, rfl, by decide⟩)).2.2
        (GoError.text "anti-content unavailable") rfl).2 rateLimited⟩

end TemuWebClient
